import Mathlib

/-!
Verification development for the pyDGuard repository.

The repository has two relevant modules:
* `pypackage/core/scanner.py` — `DependencyScanner` with `parse_pip_freeze`
  (turns pip-freeze lines into `{name, version}` records) and
  `check_deprecation_status` (evaluates each record against a static
  policy table, a pre-release keyword heuristic and a deprecated-name
  heuristic).
* `pypackage/pypackage.py` — `PackageManage` with `get_installed_packages`
  (a second, slightly different parsing loop) and `full_update_packages`
  (bulk upgrade).

The embedding below is a shallow one: Python strings are Lean `String`s
(worked on through their `List Char` data), Python `int(...)` on version
segments is modelled by `pyIntL` (optional surrounding whitespace, optional
sign, decimal digits with single underscores between digits), Python list
comparison `<` on integer lists is `pyListLt`, and `str.strip()` is
`pyStrip` with `Char.isWhitespace` as the whitespace class (both parsing
routines under study use the same class, so the comparison between them is
unaffected by the exact set of whitespace characters). Subprocess calls
(`pip install --upgrade ...`) are abstracted as a function
`upgrade : String → Bool` passed to the bulk-update model.
-/

/-- Whitespace test used to model Python `str.strip()`. -/
def isSpace (c : Char) : Bool := c.isWhitespace

/-- Model of Python `str.strip()` on the character list of a string:
drop whitespace from the front, then from the back. -/
def pyStrip (l : List Char) : List Char :=
  ((l.dropWhile isSpace).reverse.dropWhile isSpace).reverse

/-- Does `pat` occur at the start of `l`? (Model of Python prefix test
used to locate a substring.) -/
def begMatch : List Char → List Char → Bool
  | [], _ => true
  | _ :: _, [] => false
  | p :: ps, c :: cs => p == c && begMatch ps cs

/-- Model of Python `pat in s` (substring containment). -/
def hasSub (pat : List Char) : List Char → Bool
  | [] => begMatch pat []
  | c :: rest => begMatch pat (c :: rest) || hasSub pat rest

/-- Locate the first occurrence of `pat` in `l`; return the part before
it and the part after it.  This is the engine of Python
`s.split(pat, 1)`. -/
def splitFirst (pat : List Char) : List Char → Option (List Char × List Char)
  | [] => if begMatch pat [] then some ([], []) else none
  | c :: rest =>
    if begMatch pat (c :: rest) then some ([], (c :: rest).drop pat.length)
    else
      match splitFirst pat rest with
      | some (a, b) => some (c :: a, b)
      | none => none

/-- Model of Python `s.split(pat, 1)`: two pieces when the separator
occurs, otherwise the whole string. -/
def pySplit1 (pat : List Char) (l : List Char) : List (List Char) :=
  match splitFirst pat l with
  | some (a, b) => [a, b]
  | none => [l]

/-- The `"=="` separator of the pip-freeze listing format. -/
def sepChars : List Char := ['=', '=']

/-- A parsed `{name, version}` dictionary, as produced by both parsing
routines of the repository. -/
structure PackageRecord where
  name : String
  version : String
deriving DecidableEq

/-- The body shared by both parsing routines, acting on the character
list it is given (not stripped here): skip if empty or without `"=="`,
otherwise split on the first `"=="` and strip both parts.  This is
literally the loop body of `PackageManage.get_installed_packages`. -/
def lineBody (l : List Char) : Option PackageRecord :=
  if !l.isEmpty && hasSub sepChars l then
    match splitFirst sepChars l with
    | some (a, b) => some ⟨⟨pyStrip a⟩, ⟨pyStrip b⟩⟩
    | none => none
  else none

/-- One line of `DependencyScanner.parse_pip_freeze`: the line is first
stripped (`line = line.strip()`), then tested (`if line and '==' in
line`), split with `line.split('==', 1)`, and, when the split yields two
parts, both parts are stripped into a record.  (`split('==', 1)` yields
two parts exactly when `'=='` occurs, so the `len(parts) == 2` test of
the source is the `[a, b]` branch of the match.) -/
def parseLine (line : String) : Option PackageRecord :=
  let l := pyStrip line.data
  if !l.isEmpty && hasSub sepChars l then
    match pySplit1 sepChars l with
    | [a, b] => some ⟨⟨pyStrip a⟩, ⟨pyStrip b⟩⟩
    | _ => none
  else none

/-- `DependencyScanner.parse_pip_freeze`: best-effort parse of every
line, in order, appending one record per accepted line. -/
def parse_pip_freeze (freeze_output : List String) : List PackageRecord :=
  freeze_output.filterMap parseLine

/-- One line of the loop of `PackageManage.get_installed_packages`: the
raw line is tested (`if line and '==' in line`) and split
(`line.split('==', 1)`) without stripping the line first; only the two
resulting parts are stripped. -/
def instLine (line : String) : Option PackageRecord :=
  lineBody line.data

/-- The parsing loop of `PackageManage.get_installed_packages` over the
lines of the pip-freeze output. -/
def get_installed_packages_parse (lines : List String) : List PackageRecord :=
  lines.filterMap instLine

example : parse_pip_freeze ["", "nosep", "a==1==2"] = [⟨"a", "1==2"⟩] := by decide
example : parse_pip_freeze ["==1.0"] = [⟨"", "1.0"⟩] := by decide
example : parse_pip_freeze ["  foo == 1.2.3 "] = [⟨"foo", "1.2.3"⟩] := by decide
example : get_installed_packages_parse ["  foo == 1.2.3 "] = [⟨"foo", "1.2.3"⟩] := by decide

/-! ## The policy evaluator (`DependencyScanner.check_deprecation_status`) -/

/-- Model of Python `str.lower()` (the names and versions of the
repository are ASCII, where `Char.toLower` agrees with Python). -/
def lowerStr (s : String) : String := ⟨s.data.map Char.toLower⟩

/-- Decimal value of a digit character. -/
def charVal (c : Char) : Nat := c.toNat - 48

/-- Digit tail of a Python integer literal: after a first digit, further
digits may follow, with single underscores allowed between digits. -/
def pyDigitsAux : List Char → Nat → Option Nat
  | [], acc => some acc
  | '_' :: rest, acc =>
    match rest with
    | c :: rest2 => if c.isDigit then pyDigitsAux rest2 (acc * 10 + charVal c) else none
    | [] => none
  | c :: rest, acc => if c.isDigit then pyDigitsAux rest (acc * 10 + charVal c) else none

/-- Nonempty decimal digit sequence (underscore-grouped) of a Python
integer literal. -/
def pyDigits : List Char → Option Nat
  | [] => none
  | c :: rest => if c.isDigit then pyDigitsAux rest (charVal c) else none

/-- Model of Python `int(s)` on a decimal string: surrounding whitespace
is stripped, an optional sign is allowed, then a nonempty digit
sequence; anything else raises `ValueError`, modelled as `none`. -/
def pyIntL (l : List Char) : Option Int :=
  match pyStrip l with
  | '+' :: rest => (pyDigits rest).map Int.ofNat
  | '-' :: rest => (pyDigits rest).map (fun n => -(Int.ofNat n))
  | r => (pyDigits r).map Int.ofNat

/-- Model of Python `s.split('.')` (single-character separator, no
count limit): `""` yields `[""]`, adjacent dots yield empty pieces. -/
def splitOnDot : List Char → List (List Char)
  | [] => [[]]
  | c :: rest =>
    if c = '.' then [] :: splitOnDot rest
    else
      match splitOnDot rest with
      | h :: t => (c :: h) :: t
      | [] => [[c]]

/-- `list(map(int, version.split('.')))` of the source: all dot-separated
segments converted by `int`, `none` when any segment raises. -/
def parseVersion (v : String) : Option (List Int) :=
  (splitOnDot v.data).mapM pyIntL

/-- Python list comparison `<` on integer lists: lexicographic, a strict
prefix is less than the longer list. -/
def pyListLt : List Int → List Int → Bool
  | _, [] => false
  | [], _ :: _ => true
  | a :: as, b :: bs => if a < b then true else if b < a then false else pyListLt as bs

/-- The static `deprecated_packages` table of
`DependencyScanner.check_deprecation_status`: known package names with
their minimum supported versions. -/
def deprecated_packages : List (String × String) :=
  [("requests", "2.0.0"), ("django", "3.0.0"), ("flask", "2.0.0"),
   ("numpy", "1.20.0"), ("tensorflow", "2.0.0"), ("pandas", "1.0.0"),
   ("matplotlib", "3.0.0"), ("scikit-learn", "0.22.0"), ("fastapi", "0.68.0"),
   ("pytorch", "1.8.0"), ("scipy", "1.6.0"), ("pillow", "8.0.0"),
   ("sqlalchemy", "1.4.0"), ("beautifulsoup4", "4.9.0"), ("selenium", "4.0.0"),
   ("pytest", "6.0.0"), ("jupyter", "1.0.0"), ("notebook", "6.0.0"),
   ("ipython", "7.0.0"), ("aiohttp", "3.7.0"), ("tornado", "6.1.0"),
   ("celery", "5.0.0"), ("redis", "3.5.0"), ("psycopg2", "2.8.0"),
   ("pymongo", "3.11.0"), ("sqlite3", "3.35.0"), ("pygame", "2.0.0"),
   ("opencv-python", "4.5.0"), ("tqdm", "4.60.0"), ("loguru", "0.5.0"),
   ("rich", "9.0.0"), ("click", "8.0.0"), ("typer", "0.3.0"),
   ("pydantic", "1.8.0"), ("marshmallow", "3.12.0"), ("gunicorn", "20.1.0"),
   ("uvicorn", "0.13.0"), ("django-rest-framework", "3.12.0"),
   ("flask-restful", "0.3.9"), ("graphene", "3.0.0"), ("plotly", "5.0.0"),
   ("seaborn", "0.11.0"), ("bokeh", "2.4.0"), ("streamlit", "1.0.0"),
   ("dash", "2.0.0"), ("airflow", "2.2.0"), ("prefect", "0.15.0"),
   ("luigi", "3.0.0"), ("mlflow", "1.23.0"), ("transformers", "4.15.0"),
   ("spacy", "3.2.0"), ("nltk", "3.6.0"), ("gensim", "4.1.0"),
   ("elasticsearch", "7.15.0"), ("kafka-python", "2.0.0"), ("boto3", "1.20.0"),
   ("azure-storage-blob", "12.9.0"), ("google-cloud-storage", "2.0.0"),
   ("twisted", "22.0.0"), ("asyncio", "3.4.0"), ("virtualenv", "20.10.0"),
   ("pipenv", "2022.0.0"), ("poetry", "1.2.0")]

/-- Python dict lookup `deprecated_packages[dep_name]` guarded by
`dep_name in deprecated_packages` (the table has distinct keys, so
first-match association lookup is the dict's semantics). -/
def tableLookup (k : String) : List (String × String) → Option String
  | [] => none
  | (n, v) :: rest => if k = n then some v else tableLookup k rest

/-- The pre-release keywords of check 2. -/
def prerelKeywords : List String := ["alpha", "beta", "rc", "dev", "pre"]

/-- Check 2's test: `any(keyword in current_version.lower() for keyword
in ['alpha', 'beta', 'rc', 'dev', 'pre'])`. -/
def prerelease (v : String) : Bool :=
  prerelKeywords.any (fun kw => hasSub kw.data (lowerStr v).data)

/-- One evaluation verdict, with the field names of the `dep_info`
dictionary of the source. -/
structure EvaluationResult where
  name : String
  current_version : String
  is_deprecated : Bool
  deprecation_reason : Option String
  has_warnings : Bool
  warnings : List String
deriving DecidableEq

/-- The freshly initialised `dep_info` dictionary of the source. -/
def mkInit (dep_name current_version : String) : EvaluationResult :=
  ⟨dep_name, current_version, false, none, false, []⟩

/-- Check 1 (known-package minimum-version check) of
`check_deprecation_status`, applied to the fresh `dep_info`: on table
hit, both versions are converted with `int` on their dot-separated
segments; on success the integer lists are compared with Python `<`; a
`ValueError` in either conversion lands in the `except` branch, which
records the cannot-be-parsed warning. -/
def stage1 (dep_name current_version : String) : EvaluationResult :=
  let init := mkInit dep_name current_version
  match tableLookup dep_name deprecated_packages with
  | none => init
  | some min_supported_version =>
    match parseVersion current_version, parseVersion min_supported_version with
    | some current_parts, some min_parts =>
      if pyListLt current_parts min_parts then
        { init with
            is_deprecated := true,
            deprecation_reason := some ("Version " ++ current_version ++
              " is deprecated. Minimum supported version: " ++ min_supported_version) }
      else init
    | _, _ =>
      { init with
          has_warnings := true,
          warnings := ["Version " ++ current_version ++ " cannot be parsed"] }

/-- Check 2 (pre-release keyword check) as an update of the running
`dep_info`. -/
def stage2 (current_version : String) (r : EvaluationResult) : EvaluationResult :=
  if prerelease current_version then
    { r with
        has_warnings := true,
        warnings := r.warnings ++ ["This is a development/pre-release version"] }
  else r

/-- Check 3 (deprecated-name heuristic) as an update of the running
`dep_info`: fires on `'deprecated' in dep_name or 'legacy' in dep_name`
and overwrites any earlier deprecation reason. -/
def stage3 (dep_name : String) (r : EvaluationResult) : EvaluationResult :=
  if hasSub "deprecated".data dep_name.data || hasSub "legacy".data dep_name.data then
    { r with
        is_deprecated := true,
        deprecation_reason := some "Package name indicates deprecated status" }
  else r

/-- The loop body of `check_deprecation_status` for one record:
`dep_name = dep['name'].lower()`, then checks 1, 2, 3 in order on the
mutable `dep_info`. -/
def check_deprecation_one (dep : PackageRecord) : EvaluationResult :=
  stage3 (lowerStr dep.name) (stage2 dep.version (stage1 (lowerStr dep.name) dep.version))

/-- `DependencyScanner.check_deprecation_status`: one verdict per
record, in order. -/
def check_deprecation_status (deps : List PackageRecord) : List EvaluationResult :=
  deps.map check_deprecation_one

example : (check_deprecation_one ⟨"requests", "1.5.0"⟩).is_deprecated = true := by decide
example : (check_deprecation_one ⟨"requests", "1.5.0"⟩).deprecation_reason =
    some "Version 1.5.0 is deprecated. Minimum supported version: 2.0.0" := by decide
example : check_deprecation_one ⟨"requests", "2.5.0"⟩ =
    ⟨"requests", "2.5.0", false, none, false, []⟩ := by decide
example : (check_deprecation_one ⟨"numpy", "1.x.0"⟩).warnings =
    ["Version 1.x.0 cannot be parsed"] := by decide
example : (check_deprecation_one ⟨"My-Legacy-Lib", "9.9.9"⟩).deprecation_reason =
    some "Package name indicates deprecated status" := by decide
example : (check_deprecation_one ⟨"foo", "1.0.0-beta"⟩).warnings =
    ["This is a development/pre-release version"] := by decide
example : prerelease "1.0.0-predictable" = true := by decide
example : parseVersion "1.5.0" = some [1, 5, 0] := by decide
example : parseVersion "2022.0.0" = some [2022, 0, 0] := by decide
example : pyIntL "  -1_0 ".data = some (-10) := by decide
example : pyIntL "1__0".data = none := by decide

/-! ## Bulk upgrade (`PackageManage.full_update_packages`)

The pip invocation of `update_package` is abstracted as
`upgrade : String → Bool` (its success report), and the listing
returned by `get_installed_packages` as the `packages` argument.  The
model returns, besides the `all_success` flag, the trace of package
names on which `upgrade` was invoked, in call order. -/

/-- The loop of `full_update_packages`: on each package, call
`update_package`; on failure set `all_success = False` and continue. -/
def full_update_go (upgrade : String → Bool) :
    List PackageRecord → Bool → Bool × List String
  | [], all_success => (all_success, [])
  | p :: rest, all_success =>
    let ok := upgrade p.name
    let next := full_update_go upgrade rest (if ok then all_success else false)
    (next.1, p.name :: next.2)

/-- `PackageManage.full_update_packages`, starting from
`all_success = True`. -/
def full_update_packages (upgrade : String → Bool) (packages : List PackageRecord) :
    Bool × List String :=
  full_update_go upgrade packages true

/-! ## Helper lemmas -/

/-- `hasSub` holds exactly when `splitFirst` finds an occurrence. -/
theorem hasSub_eq_isSome_splitFirst (pat : List Char) :
    ∀ l : List Char, hasSub pat l = (splitFirst pat l).isSome := by
  intro l
  induction l with
  | nil =>
    by_cases h : begMatch pat [] = true <;> simp [hasSub, splitFirst, h]
  | cons c rest ih =>
    by_cases h : begMatch pat (c :: rest) = true
    · simp [hasSub, splitFirst, h]
    · simp only [hasSub, splitFirst, h, Bool.false_or, if_neg]
      rw [ih]
      cases hs : splitFirst pat rest with
      | none => simp [hs]
      | some ab => cases ab with | mk a b => simp [hs]

/-- A successful `hasSub` produces a concrete split. -/
theorem splitFirst_some_of_hasSub {pat l : List Char} (h : hasSub pat l = true) :
    ∃ a b, splitFirst pat l = some (a, b) := by
  rw [hasSub_eq_isSome_splitFirst] at h
  cases hs : splitFirst pat l with
  | none => rw [hs] at h; simp at h
  | some ab => exact ⟨ab.1, ab.2, by simp [hs]⟩

example : full_update_packages (fun n => !(n == "B"))
    [⟨"A", "1"⟩, ⟨"B", "1"⟩, ⟨"C", "1"⟩] = (false, ["A", "B", "C"]) := by decide

/-- A whitespace character is not `'='`. -/
theorem eq_beq_ws_false {c : Char} (h : isSpace c = true) : ('=' == c) = false := by
  by_cases hc : c = '='
  · subst hc; exact absurd h (by decide)
  · exact beq_eq_false_iff_ne.mpr (fun he => hc he.symm)

/-- Stripping ignores a leading whitespace character. -/
theorem pyStrip_cons_ws {c : Char} (h : isSpace c = true) (l : List Char) :
    pyStrip (c :: l) = pyStrip l := by
  simp [pyStrip, List.dropWhile_cons, h]

/-- Stripping ignores a trailing whitespace character. -/
theorem pyStrip_append_ws {c : Char} (h : isSpace c = true) (l : List Char) :
    pyStrip (l ++ [c]) = pyStrip l := by
  unfold pyStrip
  rw [List.dropWhile_append]
  by_cases he : (l.dropWhile isSpace).isEmpty
  · rw [if_pos he]
    simp [List.dropWhile_cons, h, List.isEmpty_iff.mp he]
  · rw [if_neg he]
    simp [List.reverse_append, List.dropWhile_cons, h]

/-- The separator cannot start at a whitespace character. -/
theorem begMatch_sep_cons_ws {c : Char} (h : isSpace c = true) (l : List Char) :
    begMatch sepChars (c :: l) = false := by
  simp [sepChars, begMatch, eq_beq_ws_false h]

/-- Occurrence of the separator is unaffected by a leading whitespace
character. -/
theorem hasSub_sep_cons_ws {c : Char} (h : isSpace c = true) (l : List Char) :
    hasSub sepChars (c :: l) = hasSub sepChars l := by
  simp [hasSub, begMatch_sep_cons_ws h]

/-- A match of the separator at the head of a nonempty list is
unaffected by a trailing whitespace character. -/
theorem begMatch_sep_append_ws {c : Char} (h : isSpace c = true) (x : Char) (l : List Char) :
    begMatch sepChars ((x :: l) ++ [c]) = begMatch sepChars (x :: l) := by
  cases l with
  | nil => simp [begMatch, sepChars, eq_beq_ws_false h]
  | cons y l2 => simp [begMatch, sepChars]

/-- Occurrence of the separator is unaffected by a trailing whitespace
character. -/
theorem hasSub_sep_append_ws {c : Char} (h : isSpace c = true) :
    ∀ l : List Char, hasSub sepChars (l ++ [c]) = hasSub sepChars l := by
  intro l
  induction l with
  | nil => simp [hasSub, begMatch, sepChars, eq_beq_ws_false h]
  | cons c2 l ih =>
    simp only [List.cons_append, hasSub, List.append_eq, ih]
    rw [← List.cons_append, begMatch_sep_append_ws h]

/-- A prefix match survives extending the list on the right. -/
theorem begMatch_append_true :
    ∀ (pat : List Char) {l t : List Char}, begMatch pat l = true →
      begMatch pat (l ++ t) = true := by
  intro pat
  induction pat with
  | nil => intro l t _; cases l <;> simp [begMatch]
  | cons p ps ih =>
    intro l t hm
    cases l with
    | nil => exact absurd hm (by simp [begMatch])
    | cons c cs =>
      simp only [begMatch, Bool.and_eq_true] at hm
      simp only [List.cons_append, begMatch, Bool.and_eq_true]
      exact ⟨hm.1, ih hm.2⟩

/-- The first split of the separator is unaffected by a trailing
whitespace character, which lands in the part after the separator. -/
theorem splitFirst_sep_append_of_some {c : Char} (h : isSpace c = true) :
    ∀ {l a b : List Char}, splitFirst sepChars l = some (a, b) →
      splitFirst sepChars (l ++ [c]) = some (a, b ++ [c]) := by
  intro l
  induction l with
  | nil => intro a b hsp; exact absurd hsp (by simp [splitFirst, begMatch, sepChars])
  | cons x l ih =>
    intro a b hsp
    by_cases hbm : begMatch sepChars (x :: l) = true
    · cases l with
      | nil => exact absurd hbm (by simp [begMatch, sepChars])
      | cons y l2 =>
        rw [splitFirst, if_pos hbm] at hsp
        have hab : a = [] ∧ b = l2 := by
          have hdrop : (x :: y :: l2).drop sepChars.length = l2 := rfl
          rw [hdrop] at hsp
          simp only [Option.some.injEq, Prod.mk.injEq] at hsp
          exact ⟨hsp.1.symm, hsp.2.symm⟩
        rw [hab.1, hab.2]
        have hbm2 : begMatch sepChars ((x :: y :: l2) ++ [c]) = true :=
          begMatch_append_true _ hbm
        simp only [List.cons_append] at hbm2 ⊢
        rw [splitFirst, if_pos hbm2]
        rfl
    · have hbmc : begMatch sepChars (x :: (l ++ [c])) = false := by
        have := begMatch_sep_append_ws h x l
        simp only [List.cons_append] at this
        rw [this]
        exact Bool.not_eq_true _ ▸ hbm
      rw [splitFirst, if_neg hbm] at hsp
      cases hsl : splitFirst sepChars l with
      | none => rw [hsl] at hsp; exact absurd hsp (by simp)
      | some ab =>
        obtain ⟨a2, b2⟩ := ab
        rw [hsl] at hsp
        simp only [Option.some.injEq, Prod.mk.injEq] at hsp
        obtain ⟨ha, hb⟩ := hsp
        subst ha; subst hb
        simp only [List.cons_append]
        rw [splitFirst, if_neg (by simp [hbmc]), ih hsl]

/-- A nonempty list is required for the separator to occur. -/
theorem not_isEmpty_of_hasSub {l : List Char} (hs : hasSub sepChars l = true) :
    l.isEmpty = false := by
  cases l with
  | nil => exact absurd hs (by simp [hasSub, begMatch, sepChars])
  | cons c l2 => rfl

/-- The shared line body ignores a leading whitespace character. -/
theorem lineBody_cons_ws {c : Char} (h : isSpace c = true) (l : List Char) :
    lineBody (c :: l) = lineBody l := by
  by_cases hs : hasSub sepChars l = true
  · have hsc : hasSub sepChars (c :: l) = true := by
      rw [hasSub_sep_cons_ws h]; exact hs
    obtain ⟨a, b, hsp⟩ := splitFirst_some_of_hasSub hs
    have hspc : splitFirst sepChars (c :: l) = some (c :: a, b) := by
      rw [splitFirst, if_neg (by simp [begMatch_sep_cons_ws h]), hsp]
    rw [lineBody, lineBody]
    rw [if_pos (by simp [hsc]), if_pos (by simp [hs, not_isEmpty_of_hasSub hs])]
    rw [hsp, hspc]
    simp [pyStrip_cons_ws h]
  · have hsc : hasSub sepChars (c :: l) = false := by
      rw [hasSub_sep_cons_ws h]; exact Bool.not_eq_true _ ▸ hs
    rw [lineBody, lineBody]
    rw [if_neg (by simp [hsc]), if_neg (by simp [Bool.not_eq_true _ ▸ hs])]

/-- The shared line body ignores a trailing whitespace character. -/
theorem lineBody_append_ws {c : Char} (h : isSpace c = true) (l : List Char) :
    lineBody (l ++ [c]) = lineBody l := by
  by_cases hs : hasSub sepChars l = true
  · have hsc : hasSub sepChars (l ++ [c]) = true := by
      rw [hasSub_sep_append_ws h]; exact hs
    obtain ⟨a, b, hsp⟩ := splitFirst_some_of_hasSub hs
    have hspc := splitFirst_sep_append_of_some h hsp
    rw [lineBody, lineBody]
    rw [if_pos (by simp [hsc]), if_pos (by simp [hs, not_isEmpty_of_hasSub hs])]
    rw [hsp, hspc]
    simp [pyStrip_append_ws h]
  · have hsc : hasSub sepChars (l ++ [c]) = false := by
      rw [hasSub_sep_append_ws h]; exact Bool.not_eq_true _ ▸ hs
    rw [lineBody, lineBody]
    rw [if_neg (by simp [hsc]), if_neg (by simp [Bool.not_eq_true _ ▸ hs])]

/-- The shared line body ignores leading whitespace. -/
theorem lineBody_dropWhile (l : List Char) :
    lineBody (l.dropWhile isSpace) = lineBody l := by
  induction l with
  | nil => rfl
  | cons c l ih =>
    by_cases h : isSpace c = true
    · rw [List.dropWhile_cons_of_pos h, ih, lineBody_cons_ws h]
    · rw [List.dropWhile_cons_of_neg h]

/-- The shared line body ignores trailing whitespace (phrased through
the reversed list). -/
theorem lineBody_rev_dropWhile (z : List Char) :
    lineBody ((z.dropWhile isSpace).reverse) = lineBody z.reverse := by
  induction z with
  | nil => rfl
  | cons c z ih =>
    by_cases h : isSpace c = true
    · rw [List.dropWhile_cons_of_pos h, ih, List.reverse_cons, lineBody_append_ws h]
    · rw [List.dropWhile_cons_of_neg h]

/-- Stripping a line first does not change what the shared line body
produces. -/
theorem lineBody_pyStrip (l : List Char) : lineBody (pyStrip l) = lineBody l := by
  unfold pyStrip
  have hrev := lineBody_rev_dropWhile ((l.dropWhile isSpace).reverse)
  rw [List.reverse_reverse] at hrev
  rw [hrev, lineBody_dropWhile]

/-- The scanner's per-line parse is the shared line body applied to the
stripped line. -/
theorem parseLine_eq_lineBody (s : String) :
    parseLine s = lineBody (pyStrip s.data) := by
  unfold parseLine lineBody pySplit1
  cases hsp : splitFirst sepChars (pyStrip s.data) with
  | none => simp [hsp]
  | some ab => obtain ⟨a, b⟩ := ab; simp [hsp]

/-- Python integer-list comparison agrees with the standard
lexicographic strict order (first differing element decides, a strict
prefix is less). -/
theorem pyListLt_iff_lex :
    ∀ a b : List Int, pyListLt a b = true ↔ List.Lex (· < ·) a b := by
  intro a
  induction a with
  | nil =>
    intro b
    cases b with
    | nil =>
      constructor
      · intro hlt; simp [pyListLt] at hlt
      · intro hlex; cases hlex
    | cons y ys => exact ⟨fun _ => List.Lex.nil, fun _ => rfl⟩
  | cons x xs ih =>
    intro b
    cases b with
    | nil =>
      constructor
      · intro hlt; simp [pyListLt] at hlt
      · intro hlex; cases hlex
    | cons y ys =>
      by_cases h1 : x < y
      · constructor
        · intro _; exact List.Lex.rel h1
        · intro _; simp [pyListLt, h1]
      · by_cases h2 : y < x
        · constructor
          · intro hlt; simp [pyListLt, h1, h2] at hlt
          · intro hlex
            cases hlex with
            | cons h3 => exact absurd rfl (ne_of_gt h2)
            | rel h3 => exact absurd h3 h1
        · have hxy : x = y := le_antisymm (not_lt.mp h2) (not_lt.mp h1)
          subst hxy
          constructor
          · intro hlt
            have hxs : pyListLt xs ys = true := by simpa [pyListLt, h1, h2] using hlt
            exact List.Lex.cons ((ih ys).mp hxs)
          · intro hlex
            have hys : List.Lex (· < ·) xs ys := by
              cases hlex with
              | cons h3 => exact h3
              | rel h3 => exact absurd h3 h1
            simp [pyListLt, h1, h2, (ih ys).mpr hys]

/-- A successful table lookup names an entry of the table. -/
theorem mem_of_tableLookup :
    ∀ {tbl : List (String × String)} {k v : String},
      tableLookup k tbl = some v → (k, v) ∈ tbl := by
  intro tbl
  induction tbl with
  | nil => intro k v hl; exact absurd hl (by simp [tableLookup])
  | cons p rest ih =>
    intro k v hl
    obtain ⟨n, mv⟩ := p
    rw [tableLookup] at hl
    by_cases hk : k = n
    · rw [if_pos hk] at hl
      injection hl with hv
      subst hk; subst hv
      exact List.mem_cons_self _ _
    · rw [if_neg hk] at hl
      exact List.mem_cons_of_mem _ (ih hl)

/-- No key of the static policy table contains the substrings
`"deprecated"` or `"legacy"` (so check 3 never fires on a table hit). -/
theorem table_keys_clean :
    deprecated_packages.all
      (fun p => !(hasSub "deprecated".data p.1.data || hasSub "legacy".data p.1.data)) = true := by
  decide

/-- The cannot-be-parsed warning is never the pre-release warning. -/
theorem cannot_parse_ne_prerel (v : String) :
    ("Version " ++ v ++ " cannot be parsed") ≠ "This is a development/pre-release version" := by
  intro hEq
  have hd := congrArg (fun s => s.data.head?) hEq
  simp only [String.data_append] at hd
  simp at hd

/-- Check 2 leaves the deprecation flag alone. -/
theorem stage2_is_deprecated (v : String) (r : EvaluationResult) :
    (stage2 v r).is_deprecated = r.is_deprecated := by
  unfold stage2; split <;> rfl

/-- Check 2 leaves the deprecation reason alone. -/
theorem stage2_reason (v : String) (r : EvaluationResult) :
    (stage2 v r).deprecation_reason = r.deprecation_reason := by
  unfold stage2; split <;> rfl

/-- Check 2 appends its warning exactly when a pre-release keyword
occurs. -/
theorem stage2_warnings (v : String) (r : EvaluationResult) :
    (stage2 v r).warnings =
      if prerelease v then r.warnings ++ ["This is a development/pre-release version"]
      else r.warnings := by
  unfold stage2; split <;> simp_all

/-- Check 2 raises the warning flag exactly when a pre-release keyword
occurs. -/
theorem stage2_has_warnings (v : String) (r : EvaluationResult) :
    (stage2 v r).has_warnings = if prerelease v then true else r.has_warnings := by
  unfold stage2; split <;> simp_all

/-- Check 3 leaves the warnings alone. -/
theorem stage3_warnings (n : String) (r : EvaluationResult) :
    (stage3 n r).warnings = r.warnings := by
  unfold stage3; split <;> rfl

/-- Check 3 leaves the warning flag alone. -/
theorem stage3_has_warnings (n : String) (r : EvaluationResult) :
    (stage3 n r).has_warnings = r.has_warnings := by
  unfold stage3; split <;> rfl

/-- When the name matches the deprecated-name heuristic, check 3 sets
the flag and overwrites the reason. -/
theorem stage3_of_flag {n : String} (r : EvaluationResult)
    (h : (hasSub "deprecated".data n.data || hasSub "legacy".data n.data) = true) :
    stage3 n r = { r with
      is_deprecated := true,
      deprecation_reason := some "Package name indicates deprecated status" } := by
  unfold stage3; rw [if_pos h]

/-- When the name does not match the heuristic, check 3 is the
identity. -/
theorem stage3_of_not_flag {n : String} (r : EvaluationResult)
    (h : (hasSub "deprecated".data n.data || hasSub "legacy".data n.data) = false) :
    stage3 n r = r := by
  unfold stage3; rw [if_neg (by simp [h])]

/-- Check 1 on a name outside the table is the identity on the fresh
record. -/
theorem stage1_none {n v : String} (h : tableLookup n deprecated_packages = none) :
    stage1 n v = mkInit n v := by
  unfold stage1; rw [h]

/-- Check 1 on a table hit whose current version fails integer parsing
records the cannot-be-parsed warning. -/
theorem stage1_fail {n v mv : String}
    (h : tableLookup n deprecated_packages = some mv)
    (hbad : parseVersion v = none) :
    stage1 n v = { mkInit n v with
      has_warnings := true,
      warnings := ["Version " ++ v ++ " cannot be parsed"] } := by
  unfold stage1
  rw [h]
  cases hm : parseVersion mv <;> simp [hbad]

/-- Check 1 on a table hit with both versions parsed compares the
integer lists with Python list comparison. -/
theorem stage1_cmp {n v mv : String} {cur mn : List Int}
    (h : tableLookup n deprecated_packages = some mv)
    (hc : parseVersion v = some cur)
    (hm : parseVersion mv = some mn) :
    stage1 n v =
      if pyListLt cur mn then
        { mkInit n v with
            is_deprecated := true,
            deprecation_reason := some ("Version " ++ v ++
              " is deprecated. Minimum supported version: " ++ mv) }
      else mkInit n v := by
  unfold stage1
  simp only [h, hc, hm]

/-- A table hit implies the deprecated-name heuristic does not fire on
that name. -/
theorem flag_false_of_lookup {k mv : String}
    (h : tableLookup k deprecated_packages = some mv) :
    (hasSub "deprecated".data k.data || hasSub "legacy".data k.data) = false := by
  have hmem := mem_of_tableLookup h
  have hclean := List.all_eq_true.mp table_keys_clean _ hmem
  simpa using hclean

/-- Accumulator form of the bulk-update loop: the trace lists every
package name in order, and the flag is the conjunction of the
accumulator with all per-package results. -/
theorem full_update_go_trace (u : String → Bool) :
    ∀ (ps : List PackageRecord) (acc : Bool),
      (full_update_go u ps acc).2 = ps.map (fun p => p.name)
      ∧ (full_update_go u ps acc).1 = (acc && ps.all (fun p => u p.name)) := by
  intro ps
  induction ps with
  | nil => intro acc; simp [full_update_go]
  | cons p rest ih =>
    intro acc
    simp only [full_update_go, List.map_cons, List.all_cons]
    constructor
    · simp [(ih _).1]
    · rw [(ih _).2]
      cases hu : u p.name <;> cases acc <;> simp

/-- Check 1's warning flag always equals nonemptiness of its
warnings. -/
theorem stage1_hw (n v : String) :
    (stage1 n v).has_warnings = !(stage1 n v).warnings.isEmpty := by
  unfold stage1 mkInit
  split
  · rfl
  · split
    · split <;> rfl
    · rfl

/-- Check 1 sets a reason whenever it sets the deprecation flag. -/
theorem stage1_dep (n v : String) :
    (stage1 n v).is_deprecated = true → (stage1 n v).deprecation_reason.isSome = true := by
  unfold stage1 mkInit
  split
  · intro hd; simp at hd
  · split
    · split
      · intro _; rfl
      · intro hd; simp at hd
    · intro hd; simp at hd

/-- Check 1 leaves either no warning or exactly the cannot-be-parsed
warning. -/
theorem stage1_warnings_shape (n v : String) :
    (stage1 n v).warnings = []
    ∨ (stage1 n v).warnings = ["Version " ++ v ++ " cannot be parsed"] := by
  unfold stage1 mkInit
  split
  · exact Or.inl rfl
  · split
    · split
      · exact Or.inl rfl
      · exact Or.inl rfl
    · exact Or.inr rfl

/-- Check 2 preserves the warning-flag/warnings-nonempty agreement. -/
theorem stage2_hw (v : String) (r : EvaluationResult)
    (h : r.has_warnings = !r.warnings.isEmpty) :
    (stage2 v r).has_warnings = !(stage2 v r).warnings.isEmpty := by
  rw [stage2_has_warnings, stage2_warnings]
  cases hp : prerelease v
  · simp [h]
  · simp

/-! ## The claims -/

/-- C1: for a record whose lowercased name is a key of the static policy
table and whose current and minimum versions both split on `'.'` into
integer segments, the evaluator marks the record deprecated exactly when
the current segment sequence is lexicographically less than the minimum
one (first differing segment decides, a strict prefix is less), with the
reason naming both versions; in particular requests 1.5.0 is deprecated
citing minimum 2.0.0 and requests 2.5.0 is neither deprecated nor
warned. -/
theorem claim_C1 (r : PackageRecord) (minv : String) (cur mn : List Int)
    (hlook : tableLookup (lowerStr r.name) deprecated_packages = some minv)
    (hc : parseVersion r.version = some cur)
    (hm : parseVersion minv = some mn) :
    ((check_deprecation_one r).is_deprecated = true ↔ List.Lex (· < ·) cur mn)
    ∧ (List.Lex (· < ·) cur mn →
        (check_deprecation_one r).deprecation_reason =
          some ("Version " ++ r.version ++ " is deprecated. Minimum supported version: " ++ minv))
    ∧ (check_deprecation_one ⟨"requests", "1.5.0"⟩).is_deprecated = true
    ∧ (check_deprecation_one ⟨"requests", "1.5.0"⟩).deprecation_reason =
        some "Version 1.5.0 is deprecated. Minimum supported version: 2.0.0"
    ∧ check_deprecation_one ⟨"requests", "2.5.0"⟩ =
        ⟨"requests", "2.5.0", false, none, false, []⟩ := by
  have hflag := flag_false_of_lookup hlook
  have hbody : check_deprecation_one r =
      stage2 r.version (stage1 (lowerStr r.name) r.version) := by
    rw [check_deprecation_one, stage3_of_not_flag _ hflag]
  refine ⟨?_, ?_, by decide, by decide, by decide⟩
  · rw [hbody, stage2_is_deprecated, stage1_cmp hlook hc hm, ← pyListLt_iff_lex]
    cases hlt : pyListLt cur mn <;> simp [hlt, mkInit]
  · intro hlex
    have hlt : pyListLt cur mn = true := (pyListLt_iff_lex cur mn).mpr hlex
    rw [hbody, stage2_reason, stage1_cmp hlook hc hm, if_pos hlt]

/-- Witness for C1 at the record requests 1.5.0 against minimum
2.0.0. -/
theorem claim_C1_witness :
    (check_deprecation_one ⟨"requests", "1.5.0"⟩).is_deprecated = true :=
  (claim_C1 ⟨"requests", "1.5.0"⟩ "2.0.0" [1, 5, 0] [2, 0, 0]
    (by decide) (by decide) (by decide)).1.mpr (List.Lex.rel (by decide))

/-- C2: any record whose lowercased name contains the substring
`"deprecated"` or `"legacy"` comes out deprecated with reason
`"Package name indicates deprecated status"`, unconditionally; check 3
runs last, so this reason is the one left standing. -/
theorem claim_C2 (r : PackageRecord)
    (h : (hasSub "deprecated".data (lowerStr r.name).data ||
          hasSub "legacy".data (lowerStr r.name).data) = true) :
    (check_deprecation_one r).is_deprecated = true
    ∧ (check_deprecation_one r).deprecation_reason =
        some "Package name indicates deprecated status" := by
  rw [check_deprecation_one, stage3_of_flag _ h]
  exact ⟨rfl, rfl⟩

/-- Witness for C2 at the record my-legacy-lib 9.9.9. -/
theorem claim_C2_witness :
    (check_deprecation_one ⟨"my-legacy-lib", "9.9.9"⟩).is_deprecated = true
    ∧ (check_deprecation_one ⟨"my-legacy-lib", "9.9.9"⟩).deprecation_reason =
        some "Package name indicates deprecated status" :=
  claim_C2 ⟨"my-legacy-lib", "9.9.9"⟩ (by decide)

/-- C3 counterexample: the lines `"==1.0"`, `"a=="` and `"=="` all
contain `"=="` and split into an empty trimmed name or version part,
yet `parse_pip_freeze` does not skip any of them: each yields a
record (the claimed skipping does not happen). -/
theorem claim_C3_counterexample :
    parse_pip_freeze ["==1.0"] = [⟨"", "1.0"⟩]
    ∧ parse_pip_freeze ["a=="] = [⟨"a", ""⟩]
    ∧ parse_pip_freeze ["=="] = [⟨"", ""⟩] := by decide

/-- C3 amended: for every input line containing `"=="` whose split on
the first `"=="` yields an empty name part or an empty version part
after trimming, parse does NOT skip the line: it produces exactly one
record in which the empty trimmed part is kept (and no error is
raised — the function is total by construction). -/
theorem claim_C3 (line : String) (a b : List Char)
    (hsplit : splitFirst sepChars (pyStrip line.data) = some (a, b))
    (_hempty : pyStrip a = [] ∨ pyStrip b = []) :
    parse_pip_freeze [line] = [⟨⟨pyStrip a⟩, ⟨pyStrip b⟩⟩] := by
  have hs : hasSub sepChars (pyStrip line.data) = true := by
    rw [hasSub_eq_isSome_splitFirst, hsplit]; rfl
  have hne := not_isEmpty_of_hasSub hs
  have hpl : parseLine line = some ⟨⟨pyStrip a⟩, ⟨pyStrip b⟩⟩ := by
    rw [parseLine_eq_lineBody, lineBody]
    rw [if_pos (by simp [hs, hne]), hsplit]
  simp [parse_pip_freeze, hpl]

/-- Witness for C3 (amended) at the line `"==1.0"`, whose name part is
empty. -/
theorem claim_C3_witness :
    parse_pip_freeze ["==1.0"] = [⟨⟨pyStrip []⟩, ⟨pyStrip "1.0".data⟩⟩] :=
  claim_C3 "==1.0" [] "1.0".data (by decide) (Or.inl rfl)

/-- C6: parse trims each line, skips empty lines and lines without
`"=="`, splits on the first `"=="` only (a version containing `"=="`
is preserved intact), trims both parts, preserves input order and does
not deduplicate. -/
theorem claim_C6 :
    parse_pip_freeze ["", "nosep", "a==1==2"] = [⟨"a", "1==2"⟩]
    ∧ (∀ xs ys : List String,
        parse_pip_freeze (xs ++ ys) = parse_pip_freeze xs ++ parse_pip_freeze ys)
    ∧ parse_pip_freeze ["  foo == 1==2  "] = [⟨"foo", "1==2"⟩]
    ∧ parse_pip_freeze ["a==1", "a==1"] = [⟨"a", "1"⟩, ⟨"a", "1"⟩] := by
  refine ⟨by decide, ?_, by decide, by decide⟩
  intro xs ys
  simp [parse_pip_freeze, List.filterMap_append]

/-- C8: the bulk update calls `update_package` on every installed
package in listing order — also after an earlier failure — and reports
success exactly when every per-package upgrade succeeded; on
[A succeeds, B fails, C succeeds] it still attempts C and reports
failure. -/
theorem claim_C8 :
    (∀ (upgrade : String → Bool) (packages : List PackageRecord),
      (full_update_packages upgrade packages).2 = packages.map (fun p => p.name)
      ∧ (full_update_packages upgrade packages).1 = packages.all (fun p => upgrade p.name))
    ∧ full_update_packages (fun n => !(n == "B")) [⟨"A", "1"⟩, ⟨"B", "1"⟩, ⟨"C", "1"⟩] =
        (false, ["A", "B", "C"]) := by
  refine ⟨?_, by decide⟩
  intro u ps
  have h := full_update_go_trace u ps true
  exact ⟨h.1, by rw [full_update_packages, h.2]; simp⟩

/-- C9: the scanner's parse (strip the line, then test and split) and
the package manager's loop (test and split the raw line, strip only the
parts) produce identical record lists on every input. -/
theorem claim_C9 : ∀ lines : List String,
    parse_pip_freeze lines = get_installed_packages_parse lines := by
  intro lines
  unfold parse_pip_freeze get_installed_packages_parse
  have hf : parseLine = instLine := by
    funext s
    rw [parseLine_eq_lineBody, lineBody_pyStrip]
    rfl
  rw [hf]

/-- C4: on a table hit whose current version has a segment that fails
integer parsing, the evaluator does not mark the record deprecated; it
raises the warning flag and appends the cannot-be-parsed warning, and
the pre-release check still runs on the record (the deprecated-name
check also runs, but no table key matches it, so the record stays
undeprecated).  The evaluator is a total function, so no exception
escapes it on any record input. -/
theorem claim_C4 (r : PackageRecord) (minv : String)
    (hlook : tableLookup (lowerStr r.name) deprecated_packages = some minv)
    (hbad : parseVersion r.version = none) :
    (check_deprecation_one r).has_warnings = true
    ∧ ("Version " ++ r.version ++ " cannot be parsed") ∈ (check_deprecation_one r).warnings
    ∧ (check_deprecation_one r).is_deprecated = false
    ∧ (prerelease r.version = true →
        "This is a development/pre-release version" ∈ (check_deprecation_one r).warnings) := by
  have hflag := flag_false_of_lookup hlook
  have hbody : check_deprecation_one r =
      stage2 r.version (stage1 (lowerStr r.name) r.version) := by
    rw [check_deprecation_one, stage3_of_not_flag _ hflag]
  have hs1 := stage1_fail hlook hbad
  refine ⟨?_, ?_, ?_, ?_⟩
  · rw [hbody, stage2_has_warnings, hs1]
    cases hp : prerelease r.version <;> simp
  · rw [hbody, stage2_warnings, hs1]
    cases hp : prerelease r.version <;> simp
  · rw [hbody, stage2_is_deprecated, hs1]
    rfl
  · intro hp
    rw [hbody, stage2_warnings, hs1, if_pos hp]
    simp

/-- Witness for C4 at the record numpy 1.x.0 (table minimum 1.20.0,
version unparsable). -/
theorem claim_C4_witness :
    ("Version " ++ "1.x.0" ++ " cannot be parsed") ∈
      (check_deprecation_one ⟨"numpy", "1.x.0"⟩).warnings :=
  (claim_C4 ⟨"numpy", "1.x.0"⟩ "1.20.0" (by decide) (by decide)).2.1

/-- A produced verdict always has a reason when flagged deprecated, and
its warning flag always equals nonemptiness of its warnings list. -/
theorem check_inv_one (r : PackageRecord) :
    ((!(check_deprecation_one r).is_deprecated
        || (check_deprecation_one r).deprecation_reason.isSome)
      && (!(check_deprecation_one r).has_warnings
        || !(check_deprecation_one r).warnings.isEmpty)) = true := by
  have hw2 : (stage2 r.version (stage1 (lowerStr r.name) r.version)).has_warnings
      = !(stage2 r.version (stage1 (lowerStr r.name) r.version)).warnings.isEmpty :=
    stage2_hw _ _ (stage1_hw _ _)
  by_cases hflag : (hasSub "deprecated".data (lowerStr r.name).data ||
      hasSub "legacy".data (lowerStr r.name).data) = true
  · rw [check_deprecation_one, stage3_of_flag _ hflag]
    simp only [Bool.not_true, Bool.false_or, Option.isSome_some, Bool.true_and]
    rw [hw2]
    cases (stage2 r.version (stage1 (lowerStr r.name) r.version)).warnings.isEmpty <;> rfl
  · have hflag2 : (hasSub "deprecated".data (lowerStr r.name).data ||
        hasSub "legacy".data (lowerStr r.name).data) = false := by
      exact Bool.not_eq_true _ ▸ hflag
    rw [check_deprecation_one, stage3_of_not_flag _ hflag2]
    rw [Bool.and_eq_true]
    constructor
    · rw [stage2_is_deprecated, stage2_reason]
      cases hd : (stage1 (lowerStr r.name) r.version).is_deprecated
      · rfl
      · simp [stage1_dep _ _ hd]
    · rw [hw2]
      cases (stage2 r.version (stage1 (lowerStr r.name) r.version)).warnings.isEmpty <;> rfl

/-- C5: every verdict of the evaluator satisfies the invariant that a
set deprecation flag comes with a reason and a set warning flag comes
with a nonempty warnings list; and one record (deprecated name plus
pre-release version) is simultaneously deprecated and warned. -/
theorem claim_C5 :
    (∀ deps : List PackageRecord,
      (check_deprecation_status deps).all
        (fun e => (!e.is_deprecated || e.deprecation_reason.isSome)
          && (!e.has_warnings || !e.warnings.isEmpty)) = true)
    ∧ (check_deprecation_one ⟨"my-legacy-lib", "1.0.0-beta"⟩).is_deprecated = true
    ∧ (check_deprecation_one ⟨"my-legacy-lib", "1.0.0-beta"⟩).has_warnings = true := by
  refine ⟨?_, by decide, by decide⟩
  intro deps
  rw [check_deprecation_status, List.all_eq_true]
  intro e he
  rw [List.mem_map] at he
  obtain ⟨r, _, rfl⟩ := he
  exact check_inv_one r

/-- C7: the evaluator appends the pre-release warning exactly when the
lowercased version contains one of the substrings alpha, beta, rc, dev,
pre (plain containment — 1.0.0-predictable matches on pre), raising the
warning flag when it does and appending nothing from this check
otherwise. -/
theorem claim_C7 (r : PackageRecord) :
    (prerelease r.version = true →
      (check_deprecation_one r).has_warnings = true
      ∧ "This is a development/pre-release version" ∈ (check_deprecation_one r).warnings)
    ∧ (prerelease r.version = false →
      "This is a development/pre-release version" ∉ (check_deprecation_one r).warnings)
    ∧ prerelease "1.0.0-predictable" = true := by
  have hwarn : (check_deprecation_one r).warnings =
      (stage2 r.version (stage1 (lowerStr r.name) r.version)).warnings := by
    rw [check_deprecation_one, stage3_warnings]
  have hhw : (check_deprecation_one r).has_warnings =
      (stage2 r.version (stage1 (lowerStr r.name) r.version)).has_warnings := by
    rw [check_deprecation_one, stage3_has_warnings]
  refine ⟨?_, ?_, by decide⟩
  · intro hp
    constructor
    · rw [hhw, stage2_has_warnings, if_pos hp]
    · rw [hwarn, stage2_warnings, if_pos hp]
      simp
  · intro hp
    rw [hwarn, stage2_warnings, if_neg (by simp [hp])]
    rcases stage1_warnings_shape (lowerStr r.name) r.version with h | h <;> rw [h]
    · simp
    · simp only [List.mem_singleton]
      intro he
      exact cannot_parse_ne_prerel r.version he.symm

/-- Witness for C7 at the record foo 1.0.0-beta. -/
theorem claim_C7_witness :
    "This is a development/pre-release version" ∈
      (check_deprecation_one ⟨"foo", "1.0.0-beta"⟩).warnings :=
  ((claim_C7 ⟨"foo", "1.0.0-beta"⟩).1 (by decide)).2

/-- C10: when the lowercased name is not a key of the policy table, the
warnings of the verdict are exactly the pre-release warning or nothing —
the cannot-be-parsed warning is impossible, however malformed the
version — so an unknown package with an unparsable keyword-free version
comes out with no warnings at all. -/
theorem claim_C10 (r : PackageRecord)
    (hlook : tableLookup (lowerStr r.name) deprecated_packages = none) :
    (check_deprecation_one r).warnings =
      (if prerelease r.version then ["This is a development/pre-release version"] else [])
    ∧ ("Version " ++ r.version ++ " cannot be parsed") ∉ (check_deprecation_one r).warnings
    ∧ check_deprecation_one ⟨"unknownpkg", "x.y"⟩ =
        ⟨"unknownpkg", "x.y", false, none, false, []⟩ := by
  have hw : (check_deprecation_one r).warnings =
      (if prerelease r.version then ["This is a development/pre-release version"] else []) := by
    rw [check_deprecation_one, stage3_warnings, stage2_warnings, stage1_none hlook]
    cases hp : prerelease r.version <;> simp [mkInit]
  refine ⟨hw, ?_, by decide⟩
  rw [hw]
  cases hp : prerelease r.version <;> simp
  exact cannot_parse_ne_prerel r.version

/-- Witness for C10 at the record unknownpkg x.y (name outside the
table, version unparsable and keyword-free). -/
theorem claim_C10_witness :
    ("Version " ++ "x.y" ++ " cannot be parsed") ∉
      (check_deprecation_one ⟨"unknownpkg", "x.y"⟩).warnings :=
  (claim_C10 ⟨"unknownpkg", "x.y"⟩ (by decide)).2.1
